import Mathlib

/-!
# Verification of the xgfone/go-http-client core

A shallow embedding, in Lean 4, of the core logic of the Go package
`httpclient`: the status-code handler dispatch and hook phase of
`Request.Do` (src/http_request.go), the hook chain (src/http_hook.go),
the copy-on-write configuration sharing of `common[T]`
(src/http_common.go), the body codec (`EncodeData`,
`DecodeResponseBody`), the URL resolution of `Client.Request`, and the
structured `Error` rendering.

Go-side conventions used throughout the embedding:
* nil-able pointers and errors become `Option` values (`none` = nil);
* Go maps (`http.Header`, `url.Values`) become association lists;
* heap aliasing, where the claims observe it, is made explicit with a
  small heap (a list of cells addressed by index);
* external packages (`encoding/json`, `encoding/xml`, `go-toolkit/httpx`)
  are abstracted as parameters or modelled from their documented contract.
-/

namespace GoHttpClient

/-! ## Status dispatcher and the send phase of Request.Do
(src/http_request.go, src/http_common.go) -/

/-- Model of an `*http.Response` as the dispatch logic of `Request.Do`
sees it: the status code, plus an opaque tag standing for everything else
in the raw transport response (headers, body, ...). -/
structure RespM where
  status : Nat
  tag : Nat

/-- Model of the Go type `Handler = func(dst any, resp *http.Response) error`
(src/http_common.go): the destination is a nil-able opaque value, the
returned error is `Option Nat` (`none` = nil). -/
def HandlerF : Type := Option Nat → RespM → Option Nat

/-- Model of `respHandler` (src/http_common.go): the seven optional
handler slots `All, H1xx, H2xx, H3xx, H4xx, H5xx, Default`. -/
structure RespHandlerM where
  all : Option HandlerF
  h1xx : Option HandlerF
  h2xx : Option HandlerF
  h3xx : Option HandlerF
  h4xx : Option HandlerF
  h5xx : Option HandlerF
  hdefault : Option HandlerF

/-- Names for the seven cases of the `switch` in `Request.Do`
(src/http_request.go lines 131-154). -/
inductive Slot where
  | sAll
  | s1xx
  | s2xx
  | s3xx
  | s4xx
  | s5xx
  | sDefault
deriving DecidableEq, Repr

/-- The condition chain of the `switch` in `Request.Do`
(src/http_request.go lines 131-154), transcribed case by case in source
order: which handler slot handles a response with the given status code.
The `H5xx` case (`case r.handler.H5xx != nil:`) carries no status test in
the source, and the `H4xx` case carries the guard
`!r.ignore404 || resp.resp.StatusCode != 404`. -/
def respHandlerSelect (h : RespHandlerM) (ig : Bool) (status : Nat) : Option Slot :=
  if h.all.isSome then some .sAll
  else if h.h1xx.isSome && decide (status < 200) then some .s1xx
  else if h.h2xx.isSome && decide (status < 300) then some .s2xx
  else if h.h3xx.isSome && decide (status < 400) then some .s3xx
  else if h.h4xx.isSome && decide (status < 500) && (!ig || decide (status ≠ 404)) then
    some .s4xx
  else if h.h5xx.isSome then some .s5xx
  else if h.hdefault.isSome then some .sDefault
  else none

/-- The handler stored in a given slot of the table. -/
def slotHandler (h : RespHandlerM) : Slot → Option HandlerF
  | .sAll => h.all
  | .s1xx => h.h1xx
  | .s2xx => h.h2xx
  | .s3xx => h.h3xx
  | .s4xx => h.h4xx
  | .s5xx => h.h5xx
  | .sDefault => h.hdefault

/-- The body of the selected `switch` case in `Request.Do`: run the
selected slot's handler on the destination and the raw response; when no
case matches, `resp.err` is left nil. -/
def respHandlerApply (h : RespHandlerM) (ig : Bool) (dst : Option Nat) (resp : RespM) :
    Option Nat :=
  match respHandlerSelect h ig resp.status with
  | some s =>
    match slotHandler h s with
    | some f => f dst resp
    | none => none
  | none => none

/-- A hook element as `Hooks.Request` sees it: its `Request` method, a
function from a nil-able `*http.Request` (opaque `Option Nat`) to the Go
pair `(*http.Request, error)` (src/http_hook.go). -/
def HookFnM : Type := Option Nat → Option Nat × Option Nat

/-- The loop of `Hooks.Request` (src/http_hook.go lines 37-46): apply each
hook's `Request` method in order to the running request; on the first
non-nil error return `(nil, err)` without touching the remaining hooks. -/
def hooksRequest : List HookFnM → Option Nat → Option Nat × Option Nat
  | [], r => (r, none)
  | hk :: hks, r =>
    match hk r with
    | (_, some e) => (none, some e)
    | (r', none) => hooksRequest hks r'

/-- The `r.hook` field of a request: either a single hook (its `Request`
method) or a `Hooks` sequence (src/http_hook.go). -/
inductive HookM where
  | fnM (f : HookFnM)
  | seqM (hs : List HookFnM)

/-- `Hook.Request` dispatch on the dynamic type of the stored hook: a
plain hook applies its own method, a `Hooks` value runs the loop. -/
def HookM.request : HookM → Option Nat → Option Nat × Option Nat
  | .fnM f, r => f r
  | .seqM hs, r => hooksRequest hs r

/-- The `result` argument of `Request.Do`: `Do` first tests whether it is
a function `func(*http.Response) error`; otherwise it is a plain
destination value handed to the selected handler (`none` = nil). -/
inductive DoDstM where
  | fn (f : RespM → Option Nat)
  | val (v : Option Nat)

/-- The fields of `Response` (src/unnamed/part_005) that `Request.Do`
assigns and that the verified claims observe: the terminal error
`resp.err`, the prepared request `resp.req` (`none` = nil) and the raw
transport response `resp.resp`.  The purely diagnostic fields (url,
method, cost, original request body) are not modelled. -/
structure ResponseM where
  err : Option Nat
  req : Option Nat
  resp : Option RespM

/-- Model of `Request.Do` (src/http_request.go lines 87-157).

The request-preparation phase (the `http.NewRequestWithContext` call plus
the header and query merge of lines 96-110) is abstracted as `mkreq`,
which yields the prepared request or the build error
(`NewRequestWithContext` returns a non-nil request exactly when its error
is nil).  The transport `r.client.Do` is the argument `tr`; an
`http.Client` returns a non-nil response exactly when its error is nil,
so it is an `Except`.  Everything after those two boundaries follows the
source line by line: the early return on `r.err`, the hook phase, the
transport call, the function-typed `result` shortcut, and the status
`switch`. -/
def requestDo (rerr : Option Nat) (mkreq : Except Nat Nat)
    (hook : Option HookM) (tr : Option Nat → Except Nat RespM)
    (h : RespHandlerM) (ig : Bool) (dst : DoDstM) : ResponseM :=
  if rerr.isSome then { err := rerr, req := none, resp := none }
  else
    match mkreq with
    | .error e => { err := some e, req := none, resp := none }
    | .ok q =>
      let hres :=
        match hook with
        | none => (some q, none)
        | some hk => hk.request (some q)
      match hres with
      | (r1, some e) => { err := some e, req := r1, resp := none }
      | (r1, none) =>
        match tr r1 with
        | .error e => { err := some e, req := r1, resp := none }
        | .ok resp =>
          match dst with
          | .fn f => { err := f resp, req := r1, resp := some resp }
          | .val v =>
            { err := respHandlerApply h ig v resp, req := r1, resp := some resp }

/-! ## Body codec (src/unnamed/part_003: EncodeData, DecodeFromReader,
DecodeResponseBody) -/

/-- The content-type constants of the external `go-toolkit/httpx` package
as the source uses them.  Modelled from the spec and from the doc comment
of `DecodeFromReader`, which spells the first two out as
`application/xml` and `application/json`; the form type is the standard
MIME name the spec lists. -/
def mimeApplicationXML : String := "application/xml"

/-- See `mimeApplicationXML`. -/
def mimeApplicationJSON : String := "application/json"

/-- See `mimeApplicationXML`. -/
def mimeApplicationForm : String := "application/x-www-form-urlencoded"

/-- The error value `errMissingContentType` (src/unnamed/part_003).
Errors in the codec model are their message strings. -/
def errMissingContentType : String := "missing header Content-Type"

/-- A Go value passed to `EncodeData` as `data any`, classified by the
dynamic-type dispatch the source performs.  Byte-carrying shapes record
the bytes they would yield; `mapAny` records each value by its
`fmt.Sprint` rendering; `marshalForm` records the result of the value's
`MarshalForm()` method; `structured` stands for every other value
(structs, maps of other types, ...). -/
inductive DataV where
  | buffer (bs : List Nat)
  | reader (bs : List Nat)
  | bytes (bs : List Nat)
  | str (s : String)
  | writerTo (bs : List Nat)
  | urlValues (vs : List (String × List String))
  | mapString (m : List (String × String))
  | mapAny (m : List (String × String))
  | marshalForm (r : Except String (List Nat))
  | structured (id : Nat)

/-- The bytes a `string` value contributes when written through
(`io.WriteString`); modelled as the codepoint sequence. -/
def strBytes (s : String) : List Nat := s.data.map Char.toNat

/-- The outcomes of the external encoders the codec delegates to:
`encoding/json`, `encoding/xml`, and `url.Values.Encode`. -/
structure EncCodecs where
  jsonEnc : DataV → Except String (List Nat)
  xmlEnc : DataV → Except String (List Nat)
  urlEncode : List (String × List String) → String

/-- Model of `EncodeData` (src/unnamed/part_003 lines 61-118), following
the source's two-level dispatch: first on the dynamic type of `data`
(`*bytes.Buffer`, `io.Reader`, `[]byte`, `string`, `io.WriterTo` are
written through unchanged), then on the content type (`""`, xml, json,
form with its own sub-dispatch, unsupported).  The output is the byte
sequence written to `w`; the writer itself (the request's body buffer)
never fails and is left implicit. -/
def EncodeData (c : EncCodecs) (contentType : String) (data : DataV) :
    Except String (List Nat) :=
  match data with
  | .buffer bs => .ok bs
  | .reader bs => .ok bs
  | .bytes bs => .ok bs
  | .str s => .ok (strBytes s)
  | .writerTo bs => .ok bs
  | _ =>
    if contentType = "" then .error errMissingContentType
    else if contentType = mimeApplicationXML then c.xmlEnc data
    else if contentType = mimeApplicationJSON then c.jsonEnc data
    else if contentType = mimeApplicationForm then
      match data with
      | .urlValues vs => .ok (strBytes (c.urlEncode vs))
      | .mapString m =>
        .ok (strBytes (c.urlEncode (m.map (fun p => (p.1, [p.2])))))
      | .mapAny m =>
        .ok (strBytes (c.urlEncode (m.map (fun p => (p.1, [p.2])))))
      | .marshalForm r => r
      | _ =>
        .error ("not support to encode to " ++ mimeApplicationForm)
    else .error ("unsupported request Content-Type " ++ contentType)

/-- The bytes a byte-like or stream-like value writes through unchanged;
`none` for the shapes that fall through to the content-type dispatch. -/
def rawBytesOf : DataV → Option (List Nat)
  | .buffer bs => some bs
  | .reader bs => some bs
  | .bytes bs => some bs
  | .str s => some (strBytes s)
  | .writerTo bs => some bs
  | _ => none

/-- `httpx.ContentType` of the external `go-toolkit/httpx` package: the
Content-Type header value with its parameters stripped.  Modelled from
the spec ("stripped of charset parameters") and from the equivalent
in-repo helper `getContentType` (src/unnamed/part_002): cut at the first
semicolon and trim the surrounding space; a value with no semicolon is
returned as is. -/
def contentTypeOf (mime : String) : String :=
  match mime.splitOn ";" with
  | [] => mime
  | [_] => mime
  | s :: _ => s.trim

/-- The outcomes of the external decoders `encoding/xml` and
`encoding/json` on a given destination and body. -/
structure DecCodecs where
  jsonDec : Option Nat → Nat → Option String
  xmlDec : Option Nat → Nat → Option String

/-- Model of `DecodeFromReader` (src/unnamed/part_003 lines 124-136):
dispatch on the stripped content type; empty means
`errMissingContentType`, xml and json delegate to the decoders, anything
else is an unsupported-content-type error. -/
def DecodeFromReader (c : DecCodecs) (dst : Option Nat) (ct : String) (body : Nat) :
    Option String :=
  if ct = "" then some errMissingContentType
  else if ct = mimeApplicationXML then c.xmlDec dst body
  else if ct = mimeApplicationJSON then c.jsonDec dst body
  else some ("unsupported response Content-Type " ++ ct)

/-- An `*http.Response` as `DecodeResponseBody` sees it: status code, the
raw Content-Type header value, and an opaque body. -/
structure RespD where
  status : Nat
  ctRaw : String
  body : Nat

/-- Model of `DecodeResponseBody` (src/unnamed/part_003 lines 138-145):
`if dst == nil || resp.StatusCode == 204` return nil, otherwise delegate
to `DecodeFromReader` on the stripped content type. -/
def DecodeResponseBody (c : DecCodecs) (dst : Option Nat) (resp : RespD) :
    Option String :=
  if dst = none ∨ resp.status = 204 then none
  else DecodeFromReader c dst (contentTypeOf resp.ctRaw) resp.body

/-! ## URL resolution (src/unnamed/part_000: SetBaseURL, mergeurl,
Client.Request) -/

/-- Go `strings.HasPrefix`, written over the character list so that it
evaluates by kernel reduction. -/
def goHasPrefix (s pre : String) : Bool := List.isPrefixOf pre.data s.data

/-- The first character of a Go string; the byte test `s[0] == '/'` the
source performs agrees with it on UTF-8 text (for an empty string Go
would panic; the callers below guard the access). -/
def goFirstChar (s : String) : Char := s.data.headD 'A'

/-- The base-url normalization of `Client.SetBaseURL`
(src/unnamed/part_000): `strings.TrimRight(baseurl, "/")`, written over
the character list so that it evaluates by kernel reduction. -/
def setBaseURL (baseurl : String) : String :=
  String.mk (List.reverse (List.dropWhile (fun c => c = '/') (List.reverse baseurl.data)))

/-- Model of `mergeurl` (src/unnamed/part_000 lines 184-196): an empty
request url yields the base; a request url whose first byte is a slash is
concatenated onto the base; anything else is joined with a single slash
(`strings.Join([]string{baseurl, requrl}, "/")`).  The Go byte test
`requrl[0] == '/'` is the first-character test here, identical on UTF-8
text. -/
def mergeurl (baseurl requrl : String) : String :=
  if requrl = "" then baseurl
  else if goFirstChar requrl = '/' then baseurl ++ requrl
  else baseurl ++ "/" ++ requrl

/-- The url resolution of `Client.Request` (src/unnamed/part_000 lines
198-215): a request url with an `https://` or `http://` prefix is used as
is; otherwise an empty base url records the configuration error in the
request (its url field keeps the raw request url), and a non-empty base
url is merged with `mergeurl`.  Returns the request's `url` and `err`
fields. -/
def clientRequestURL (baseurl requrl : String) : String × Option String :=
  if goHasPrefix requrl "https://" ∨ goHasPrefix requrl "http://" then
    (requrl, none)
  else if baseurl = "" then
    (requrl, some ("invalid request url " ++ requrl))
  else
    (mergeurl baseurl requrl, none)

/-! ## The structured Error (src/http_client_test.go, second file:
Error, Error.String, Error.MarshalJSON) -/

/-- The cause stored in `Error.Err`: `msg` is its `Error()` text, and
`asJSON` is `some` of its marshalled text exactly when the cause
implements `json.Marshaler` (the type switch in `MarshalJSON`). -/
structure CauseV where
  msg : String
  asJSON : Option String

/-- Model of the structured `Error` (src/http_client_test.go, second
file).  `Code` is an `Int` as in Go. -/
structure ErrorM where
  method : String
  url : String
  code : Int
  data : String
  err : Option CauseV

/-- Model of `Error.String`: write `method=, url=` unconditionally, then
`, statuscode=` when `Code > 0`, then `, data=` when `Data` is non-empty,
then `, err=` when a cause is present, in that order. -/
def errorString (e : ErrorM) : String :=
  "method=" ++ e.method ++ ", url=" ++ e.url
    ++ (if 0 < e.code then ", statuscode=" ++ toString e.code else "")
    ++ (if e.data ≠ "" then ", data=" ++ e.data else "")
    ++ (match e.err with
        | some c => ", err=" ++ c.msg
        | none => "")

/-- Model of `Error.MarshalJSON` as the field list the marshalled object
contains: every field carries the `omitempty` tag, so empty strings, a
zero code and a nil cause are omitted; a cause that implements
`json.Marshaler` is marshalled as itself, any other cause as its
`Error()` string.  Field values are recorded unquoted; the JSON quoting
done by `encoding/json` is not modelled. -/
def errorJSONFields (e : ErrorM) : List (String × String) :=
  (if e.method ≠ "" then [("method", e.method)] else [])
    ++ (if e.url ≠ "" then [("url", e.url)] else [])
    ++ (if e.code ≠ 0 then [("code", toString e.code)] else [])
    ++ (if e.data ≠ "" then [("data", e.data)] else [])
    ++ (match e.err with
        | none => []
        | some c =>
          match c.asJSON with
          | some js => [("err", js)]
          | none => [("err", c.msg)])

/-! ## Copy-on-write header and query maps (src/http_common.go).

`common[T]` shares its `header` and `query` maps between a `Client` and
the `Request`s it spawns (`copyCommon` copies the map references and sets
the `cloneheader` and `clonequery` flags).  To make aliasing observable
the maps live in an explicit heap: a list of map cells addressed by
index, with both a `Client` and a `Request` holding cell indices. -/

/-- A Go string-to-string-slice map (`http.Header` or `url.Values`) as an
association list.  Key canonicalization done by `http.Header` is not
modelled; the scenarios below use canonical keys only. -/
abbrev MapV : Type := List (String × List String)

/-- Go map read `m[k]` (comma-ok form). -/
def mapGet (m : MapV) (k : String) : Option (List String) :=
  (m.find? (fun p => p.1 == k)).map (fun p => p.2)

/-- Go map assignment `m[k] = vs` (also `Header.Set`/`Values.Set` with a
singleton slice): replace the entry or append a new one. -/
def mapSet (m : MapV) (k : String) (vs : List String) : MapV :=
  match m with
  | [] => [(k, vs)]
  | p :: rest => if p.1 == k then (k, vs) :: rest else p :: mapSet rest k vs

/-- `Header.Add`/`Values.Add`: append the value to the key's slice,
creating the entry when absent. -/
def mapAdd (m : MapV) (k : String) (v : String) : MapV :=
  mapSet m k (((mapGet m k).getD []) ++ [v])

/-- The heap of map cells. -/
abbrev Heap : Type := List MapV

/-- Read the cell at an index. -/
def heapGet (w : Heap) (id : Nat) : MapV := w.getD id []

/-- Overwrite the cell at an index (in-place mutation of a Go map). -/
def heapSet (w : Heap) (id : Nat) (m : MapV) : Heap := w.set id m

/-- Allocate a fresh cell (Go `make` or a map clone) and return its
index. -/
def heapAlloc (w : Heap) (m : MapV) : Heap × Nat := (w ++ [m], w.length)

/-- The map-related state of `common[T]` (src/http_common.go): the two
cell indices and the two clone flags.  The other fields (hook, handlers,
encoder, client, onresp, ignore404) do not interact with the header and
query maps. -/
structure CommonM where
  headerId : Nat
  queryId : Nat
  cloneheader : Bool
  clonequery : Bool
deriving DecidableEq, Repr

/-- `common[T].cloneQuery` (src/http_common.go lines 97-102): when
`clonequery` is set, replace the query reference by a fresh clone of the
query map and clear the flag. -/
def cloneQueryM (w : Heap) (c : CommonM) : Heap × CommonM :=
  if c.clonequery then
    let a := heapAlloc w (heapGet w c.queryId)
    (a.1, { c with queryId := a.2, clonequery := false })
  else (w, c)

/-- `common[T].cloneHeader` (src/http_common.go lines 104-109): the same
for the header map and the `cloneheader` flag. -/
def cloneHeaderM (w : Heap) (c : CommonM) : Heap × CommonM :=
  if c.cloneheader then
    let a := heapAlloc w (heapGet w c.headerId)
    (a.1, { c with headerId := a.2, cloneheader := false })
  else (w, c)

/-- `common[T].SetHeader` (src/http_common.go lines 249-253).  The source
calls `c.cloneQuery()` (not `c.cloneHeader()`) and then mutates the
header map in place with `c.header.Set(key, value)`. -/
def setHeaderM (w : Heap) (c : CommonM) (k v : String) : Heap × CommonM :=
  let a := cloneQueryM w c
  (heapSet a.1 a.2.headerId (mapSet (heapGet a.1 a.2.headerId) k [v]), a.2)

/-- `common[T].AddHeader` (src/http_common.go lines 242-246): calls
`c.cloneQuery()` and then `c.header.Add(key, value)`. -/
def addHeaderM (w : Heap) (c : CommonM) (k v : String) : Heap × CommonM :=
  let a := cloneQueryM w c
  (heapSet a.1 a.2.headerId (mapAdd (heapGet a.1 a.2.headerId) k v), a.2)

/-- `common[T].AddHeaders` (src/http_common.go lines 216-226): empty
input returns immediately; otherwise `c.cloneQuery()` then assign each
entry into the header map.  The Go range order over the map is arbitrary;
the fold order here stands for one such order. -/
def addHeadersM (w : Heap) (c : CommonM) (hs : MapV) : Heap × CommonM :=
  if hs.length = 0 then (w, c)
  else
    let a := cloneQueryM w c
    (heapSet a.1 a.2.headerId
      (hs.foldl (fun m p => mapSet m p.1 p.2) (heapGet a.1 a.2.headerId)), a.2)

/-- `common[T].AddHeaderMap` (src/http_common.go lines 229-239): empty
input returns immediately; otherwise `c.cloneQuery()` then
`c.header.Add` each entry. -/
def addHeaderMapM (w : Heap) (c : CommonM) (hs : List (String × String)) :
    Heap × CommonM :=
  if hs.length = 0 then (w, c)
  else
    let a := cloneQueryM w c
    (heapSet a.1 a.2.headerId
      (hs.foldl (fun m p => mapAdd m p.1 p.2) (heapGet a.1 a.2.headerId)), a.2)

/-- `common[T].SetAccepts` (src/http_common.go lines 264-272): empty
input returns immediately; otherwise `c.cloneHeader()` (the one header
mutator that clones the header) then assign
`c.header[httpx.HeaderAccept] = accepts`. -/
def setAcceptsM (w : Heap) (c : CommonM) (accepts : List String) : Heap × CommonM :=
  if accepts.length = 0 then (w, c)
  else
    let a := cloneHeaderM w c
    (heapSet a.1 a.2.headerId
      (mapSet (heapGet a.1 a.2.headerId) "Accept" accepts), a.2)

/-- `common[T].SetContentType` (src/http_common.go lines 259-261):
`SetHeader("Content-Type", ct)`. -/
def setContentTypeM (w : Heap) (c : CommonM) (ct : String) : Heap × CommonM :=
  setHeaderM w c "Content-Type" ct

/-- `common[T].AddQuery` (src/http_common.go lines 202-206):
`c.cloneQuery()` then `c.query.Add(key, value)`. -/
def addQueryM (w : Heap) (c : CommonM) (k v : String) : Heap × CommonM :=
  let a := cloneQueryM w c
  (heapSet a.1 a.2.queryId (mapAdd (heapGet a.1 a.2.queryId) k v), a.2)

/-- `common[T].SetQuery` (src/http_common.go lines 209-213):
`c.cloneQuery()` then `c.query.Set(key, value)`. -/
def setQueryM (w : Heap) (c : CommonM) (k v : String) : Heap × CommonM :=
  let a := cloneQueryM w c
  (heapSet a.1 a.2.queryId (mapSet (heapGet a.1 a.2.queryId) k [v]), a.2)

/-- `common[T].AddQueries` (src/http_common.go lines 176-186): empty
input returns immediately; otherwise `c.cloneQuery()` then assign each
entry into the query map. -/
def addQueriesM (w : Heap) (c : CommonM) (qs : MapV) : Heap × CommonM :=
  if qs.length = 0 then (w, c)
  else
    let a := cloneQueryM w c
    (heapSet a.1 a.2.queryId
      (qs.foldl (fun m p => mapSet m p.1 p.2) (heapGet a.1 a.2.queryId)), a.2)

/-- `common[T].AddQueryMap` (src/http_common.go lines 189-199): empty
input returns immediately; otherwise `c.cloneQuery()` then add each
entry. -/
def addQueryMapM (w : Heap) (c : CommonM) (qs : List (String × String)) :
    Heap × CommonM :=
  if qs.length = 0 then (w, c)
  else
    let a := cloneQueryM w c
    (heapSet a.1 a.2.queryId
      (qs.foldl (fun m p => mapAdd m p.1 p.2) (heapGet a.1 a.2.queryId)), a.2)

/-- The map-related part of `NewClient` (src/unnamed/part_000 lines
113-122) on top of `newCommon` (src/http_common.go lines 61-72): allocate
the empty header and query maps with both clone flags clear (a client
owns its maps), then `SetAccepts("application/json")` and
`SetContentType("application/json; charset=UTF-8")`.  The non-map setup
(http client, encoder, handlers, logger) is omitted. -/
def newClientM (w : Heap) : Heap × CommonM :=
  let ah := heapAlloc w []
  let aq := heapAlloc ah.1 []
  let c : CommonM :=
    { headerId := ah.2, queryId := aq.2, cloneheader := false, clonequery := false }
  let s1 := setAcceptsM aq.1 c ["application/json"]
  setContentTypeM s1.1 s1.2 "application/json; charset=UTF-8"

/-- The map-related part of `copyCommon` (src/http_common.go lines
74-86), run by `Client.Request` for every spawned request: the request
aliases the client's map cells and both clone flags are set. -/
def copyCommonM (src : CommonM) : CommonM :=
  { headerId := src.headerId, queryId := src.queryId,
    cloneheader := true, clonequery := true }

/-! ## Copy-on-write hook chains (src/http_common.go: SetHook, AddHook;
src/http_hook.go: cloneHook).

`AddHook` distinguishes an empty hook, a `Hooks` slice, and a single
non-slice hook; a slice still shared with the parent (the `clonehook`
flag set by `copyCommon`) is cloned before the append.  To make slice
aliasing observable, slice backing arrays live in an explicit heap of
arrays, and a `Hooks` value is an array index plus a length.  Individual
hooks are opaque identities (`Nat`). -/

/-- The backing array of a `Hooks` slice. -/
abbrev HookArr : Type := List Nat

/-- The heap of slice backing arrays. -/
abbrev HookHeap : Type := List HookArr

/-- Read the backing array at an index. -/
def hookHeapGet (w : HookHeap) (id : Nat) : HookArr := w.getD id []

/-- The dynamic type of the `c.hook` field: nil, a single non-slice hook,
or a `Hooks` slice of the given length over the backing array `id`. -/
inductive HookRef where
  | hnil
  | single (h : Nat)
  | seq (id : Nat) (len : Nat)
deriving DecidableEq, Repr

/-- The hooks a `HookRef` denotes, in order. -/
def readChain (w : HookHeap) : HookRef → List Nat
  | .hnil => []
  | .single h => [h]
  | .seq id len => (hookHeapGet w id).take len

/-- The hook-related state of `common[T]`: the stored hook value and the
`clonehook` flag (set by `copyCommon` when the chain is still aliased by
the parent client, cleared by `SetHook`). -/
structure HookStateM where
  hook : HookRef
  clonehook : Bool
deriving DecidableEq, Repr

/-- `common[T].SetHook` (src/http_common.go lines 142-146): clear
`clonehook` and store the hook. -/
def setHookM (c : HookStateM) (r : HookRef) : HookStateM :=
  { hook := r, clonehook := false }

/-- `common[T].AddHook` (src/http_common.go lines 149-173), following the
source's three-way type switch.  A nil stored hook takes the new hook
directly (the flag is not touched).  A `Hooks` slice is cloned into a
fresh array of exactly the old elements plus the new one and stored via
`SetHook` when `clonehook` is set; otherwise `append(hooks, hook)` writes
the new element at index `len` of the backing array in place (the
capacity-driven reallocation Go may perform instead never changes the
first `len` elements either, so the in-place write is the
aliasing-relevant case).  A single non-slice hook is promoted via
`SetHook(Hooks{c.hook, hook})` to a fresh two-element array.  The nil
panic guard is outside the model (hooks here are plain identities). -/
def addHookM (w : HookHeap) (c : HookStateM) (h : Nat) : HookHeap × HookStateM :=
  match c.hook with
  | .hnil => (w, { c with hook := .single h })
  | .seq id len =>
    if c.clonehook then
      (w ++ [(hookHeapGet w id).take len ++ [h]],
        setHookM c (.seq w.length (len + 1)))
    else
      (w.set id ((hookHeapGet w id).take len ++ [h]),
        { c with hook := .seq id (len + 1) })
  | .single g => (w ++ [[g, h]], setHookM c (.seq w.length 2))

/-- The seven switch cases of `Request.Do` as a guard table, in source
order: each slot paired with the boolean condition of its `case` line.
Used to state that the switch is a first-match scan of this table. -/
def slotGuards (h : RespHandlerM) (ig : Bool) (status : Nat) : List (Slot × Bool) :=
  [ (.sAll, h.all.isSome),
    (.s1xx, h.h1xx.isSome && decide (status < 200)),
    (.s2xx, h.h2xx.isSome && decide (status < 300)),
    (.s3xx, h.h3xx.isSome && decide (status < 400)),
    (.s4xx, h.h4xx.isSome && decide (status < 500) && (!ig || decide (status ≠ 404))),
    (.s5xx, h.h5xx.isSome),
    (.sDefault, h.hdefault.isSome) ]

/-! ## Theorems -/

/-- C2, counterexample.  The claim says the 5xx slot matches only status
codes in its own range, so that a response with status below 500 never
invokes the 5xx handler.  On the code, with only the 5xx handler
registered, a 200 response does invoke it: the handler's distinctive
error 99 becomes the terminal error of `Request.Do`, and 200 < 500. -/
theorem c2_h5xx_below_500_counterexample :
    (requestDo none (.ok 0) none (fun _ => .ok ⟨200, 7⟩)
        ⟨none, none, none, none, none, some (fun _ _ => some 99), none⟩ false
        (.val none)).err = some 99
    ∧ 200 < 500 :=
  ⟨rfl, by omega⟩

/-- C2, amended.  In `Request.Do` the status handler is selected by the
first match over the cases in source order All, 1xx, 2xx, 3xx, 4xx (with
the 404/ignore404 exception), 5xx, Default, where each of the 1xx-4xx
cases guards only the upper bound of its range (status < 200, 300, 400,
500) and the 5xx and Default cases carry no status guard at all: the
selection equals a first-match scan of the guard table, and whenever a
range case 1xx-4xx is selected the status is below that range's upper
bound (with the 4xx case additionally excluding 404 when ignore404 is
set).  A status below 500 can therefore still reach the 5xx handler when
no earlier case matches. -/
theorem c2_dispatch_first_match (h : RespHandlerM) (ig : Bool) (s : Nat) :
    respHandlerSelect h ig s = ((slotGuards h ig s).find? Prod.snd).map Prod.fst
    ∧ (respHandlerSelect h ig s = some .s1xx → s < 200)
    ∧ (respHandlerSelect h ig s = some .s2xx → s < 300)
    ∧ (respHandlerSelect h ig s = some .s3xx → s < 400)
    ∧ (respHandlerSelect h ig s = some .s4xx →
        s < 500 ∧ (ig = false ∨ s ≠ 404)) := by
  refine ⟨?_, ?_, ?_, ?_, ?_⟩
  · unfold respHandlerSelect slotGuards
    cases hA : h.all.isSome with
    | true => rfl
    | false =>
    cases h1 : h.h1xx.isSome && decide (s < 200) with
    | true => rfl
    | false =>
    cases h2 : h.h2xx.isSome && decide (s < 300) with
    | true => rfl
    | false =>
    cases h3 : h.h3xx.isSome && decide (s < 400) with
    | true => rfl
    | false =>
    cases h4 : h.h4xx.isSome && decide (s < 500) && (!ig || decide (s ≠ 404)) with
    | true => rfl
    | false =>
    cases h5 : h.h5xx.isSome with
    | true => rfl
    | false =>
    cases hd : h.hdefault.isSome <;> rfl
  all_goals
    unfold respHandlerSelect
    intro hsel
    split_ifs at hsel <;> simp_all

/-- C2, witness for `c2_dispatch_first_match`: with only a 2xx handler
registered the switch selects the 2xx case for status 250, and the
theorem's upper-bound part yields 250 < 300. -/
theorem c2_dispatch_first_match_witness : (250 : Nat) < 300 :=
  (c2_dispatch_first_match
    ⟨none, none, some (fun _ _ => none), none, none, none, none⟩ false 250).2.2.1 rfl

/-- C3.  ignore404 suppresses only the 4xx slot and only for status 404:
with only a 4xx handler registered and ignore404 set, a 404 response
selects no case and `Request.Do` ends with a nil terminal error; for any
status other than 404 the flag never changes the selection; an All
handler still handles a 404; and a Default handler still handles a 404
when no non-range case sits in front of it (All and 5xx unregistered —
1xx, 2xx and 3xx cannot capture a 404 anyway). -/
theorem c3_ignore404_scope :
    (∀ (f : HandlerF) (v : Option Nat) (t q : Nat),
        respHandlerSelect ⟨none, none, none, none, some f, none, none⟩ true 404 = none
        ∧ (requestDo none (.ok q) none (fun _ => .ok ⟨404, t⟩)
            ⟨none, none, none, none, some f, none, none⟩ true (.val v)).err = none)
    ∧ (∀ (h : RespHandlerM) (s : Nat), s ≠ 404 →
        respHandlerSelect h true s = respHandlerSelect h false s)
    ∧ (∀ (h : RespHandlerM) (f : HandlerF) (v : Option Nat) (t : Nat),
        h.all = some f → respHandlerApply h true v ⟨404, t⟩ = f v ⟨404, t⟩)
    ∧ (∀ (h : RespHandlerM) (f : HandlerF) (v : Option Nat) (t : Nat),
        h.all = none → h.h5xx = none → h.hdefault = some f →
        respHandlerApply h true v ⟨404, t⟩ = f v ⟨404, t⟩) := by
  have e1 : decide ((404 : Nat) < 200) = false := by decide
  have e2 : decide ((404 : Nat) < 300) = false := by decide
  have e3 : decide ((404 : Nat) < 400) = false := by decide
  have e4 : decide ((404 : Nat) ≠ 404) = false := by decide
  refine ⟨fun f v t q => ⟨rfl, rfl⟩, ?_, ?_, ?_⟩
  · intro h s hs
    have hd4 : decide (s ≠ 404) = true := by simp [hs]
    unfold respHandlerSelect
    rw [hd4]
    simp
  · intro h f v t hall
    simp [respHandlerApply, respHandlerSelect, slotHandler, hall]
  · intro h f v t hall h5 hd
    simp [respHandlerApply, respHandlerSelect, slotHandler, hall, h5, hd, e1, e2, e3, e4]

/-- C3, witness for `c3_ignore404_scope`, exercising every hypothesized
part at concrete inputs: the only-4xx configuration at 404, the
flag-independence at status 200, the All handler at 404, and the Default
handler at 404. -/
theorem c3_ignore404_scope_witness :
    respHandlerSelect ⟨none, none, none, none, some (fun _ _ => some 7), none, none⟩
        true 404 = none
    ∧ respHandlerSelect ⟨none, none, some (fun _ _ => none), none, none, none, none⟩
        true 200
      = respHandlerSelect ⟨none, none, some (fun _ _ => none), none, none, none, none⟩
        false 200
    ∧ respHandlerApply ⟨some (fun _ _ => some 5), none, none, none, none, none, none⟩
        true none ⟨404, 0⟩ = some 5
    ∧ respHandlerApply
        ⟨none, none, none, none, some (fun _ _ => some 7), none, some (fun _ _ => some 8)⟩
        true none ⟨404, 0⟩ = some 8 := by
  refine ⟨(c3_ignore404_scope.1 (fun _ _ => some 7) none 0 0).1,
    c3_ignore404_scope.2.1 _ 200 (by decide),
    ?_, ?_⟩
  · exact c3_ignore404_scope.2.2.1 _ (fun _ _ => some 5) none 0 rfl
  · exact c3_ignore404_scope.2.2.2 _ (fun _ _ => some 8) none 0 rfl rfl rfl

/-- Helper: `Hooks.Request` over a concatenation runs the first part and,
only when it ends without error, continues with the second on the
transformed request; an error outcome passes through unchanged. -/
theorem hooksRequest_append (hs₁ hs₂ : List HookFnM) (r : Option Nat) :
    hooksRequest (hs₁ ++ hs₂) r =
      match hooksRequest hs₁ r with
      | (r', none) => hooksRequest hs₂ r'
      | (r', some e) => (r', some e) := by
  induction hs₁ generalizing r with
  | nil => rfl
  | cons hk hks ih =>
    have lhs : hooksRequest (hk :: hks ++ hs₂) r
        = match hk r with
          | (_, some e) => (none, some e)
          | (r', none) => hooksRequest (hks ++ hs₂) r' := rfl
    have rhs : hooksRequest (hk :: hks) r
        = match hk r with
          | (_, some e) => (none, some e)
          | (r', none) => hooksRequest hks r' := rfl
    rw [lhs, rhs]
    cases hkr : hk r with
    | mk r2 eo =>
      cases eo with
      | some e => rfl
      | none => exact ih r2

/-- C4.  `Hooks.Request` applies the hooks in registration order,
stopping at the first failing hook: a chain split as
`pre ++ bad :: post`, where `pre` succeeds and `bad` then fails with
error `e`, yields `(nil, e)` whatever `post` contains (the later hooks
are not invoked: the outcome does not depend on them); and when the hook
phase of `Request.Do` fails with `e`, the result is
`{err := e, req := hook result, resp := nil}` for every transport — no
transport call is observable and the hook's error is the terminal error
unchanged. -/
theorem c4_hooks_short_circuit :
    (∀ (hs₁ hs₂ : List HookFnM) (r : Option Nat),
        hooksRequest (hs₁ ++ hs₂) r =
          match hooksRequest hs₁ r with
          | (r', none) => hooksRequest hs₂ r'
          | (r', some e) => (r', some e))
    ∧ (∀ (pre post : List HookFnM) (bad : HookFnM) (r r' : Option Nat) (e : Nat),
        hooksRequest pre r = (r', none) → (bad r').2 = some e →
        hooksRequest (pre ++ bad :: post) r = (none, some e))
    ∧ (∀ (q e : Nat) (hk : HookM) (r1 : Option Nat),
        hk.request (some q) = (r1, some e) →
        ∀ (tr : Option Nat → Except Nat RespM) (h : RespHandlerM) (ig : Bool)
          (dst : DoDstM),
          requestDo none (.ok q) (some hk) tr h ig dst =
            { err := some e, req := r1, resp := none }) := by
  refine ⟨hooksRequest_append, ?_, ?_⟩
  · intro pre post bad r r' e hpre hbad
    rw [hooksRequest_append, hpre]
    show hooksRequest (bad :: post) r' = _
    unfold hooksRequest
    cases hb : bad r' with
    | mk r2 eo =>
      rw [hb] at hbad
      simp at hbad
      simp [hbad]
  · intro q e hk r1 hreq tr h ig dst
    simp [requestDo, hreq]

/-- C4, witness for `c4_hooks_short_circuit`: a chain of a succeeding
hook, a hook failing with error 3, and a trailing hook short-circuits to
`(nil, 3)`; and `Request.Do` with that chain ends with terminal error 3,
no prepared request and no transport response. -/
theorem c4_hooks_short_circuit_witness :
    hooksRequest
        [fun r => (r, none), fun _ => (none, some 3), fun r => (r, none)] (some 0)
      = (none, some 3)
    ∧ requestDo none (.ok 5)
        (some (.seqM [fun r => (r, none), fun _ => (none, some 3)]))
        (fun _ => .ok ⟨200, 0⟩)
        ⟨none, none, none, none, none, none, none⟩ false (.val none)
      = { err := some 3, req := none, resp := none } := by
  refine ⟨?_, ?_⟩
  · exact c4_hooks_short_circuit.2.1 [fun r => (r, none)] [fun r => (r, none)]
      (fun _ => (none, some 3)) (some 0) (some 0) 3 rfl rfl
  · exact c4_hooks_short_circuit.2.2 5 3
      (.seqM [fun r => (r, none), fun _ => (none, some 3)]) none rfl
      (fun _ => .ok ⟨200, 0⟩) ⟨none, none, none, none, none, none, none⟩ false
      (.val none)

/-- C10.  When the `result` argument of `Request.Do` is a function
`func(*http.Response) error` and the transport call succeeds, the
function is applied to the raw transport response and its return value is
the terminal error; the handler table and the ignore404 flag do not enter
the outcome at all (the result is the same for every table and flag). -/
theorem c10_result_function (q : Nat) (hook : Option HookM) (r1 : Option Nat)
    (tr : Option Nat → Except Nat RespM) (resp : RespM) (f : RespM → Option Nat)
    (h : RespHandlerM) (ig : Bool) :
    (match hook with
      | none => (some q, none)
      | some hk => hk.request (some q)) = (r1, none) →
    tr r1 = .ok resp →
    requestDo none (.ok q) hook tr h ig (.fn f) =
      { err := f resp, req := r1, resp := some resp } := by
  intro hhook htr
  simp [requestDo, hhook, htr]

/-- C10, witness for `c10_result_function`: no hook, a transport
returning a 200 response tagged 3, and a result function reading the tag;
the terminal error is the function's value on that raw response. -/
theorem c10_result_function_witness :
    requestDo none (.ok 1) none (fun _ => .ok ⟨200, 3⟩)
        ⟨none, none, some (fun _ _ => some 44), none, none, none, none⟩ true
        (.fn (fun r => some r.tag))
      = { err := some 3, req := some 1, resp := some ⟨200, 3⟩ } :=
  c10_result_function 1 none (some 1) (fun _ => .ok ⟨200, 3⟩) ⟨200, 3⟩
    (fun r => some r.tag)
    ⟨none, none, some (fun _ _ => some 44), none, none, none, none⟩ true rfl rfl

/-- C6.  `EncodeData` writes byte-like and stream-like values
(`*bytes.Buffer`, `io.Reader`, `[]byte`, `string`, `io.WriterTo`) through
unchanged for every content type and every choice of codec (so the
content-type table is never consulted); for every other value an empty
content type is the `errMissingContentType` error, and a content type
outside the table (not xml, json or form) is an
unsupported-content-type error. -/
theorem c6_encode_dispatch :
    (∀ (c : EncCodecs) (ct : String) (v : DataV) (bs : List Nat),
        rawBytesOf v = some bs → EncodeData c ct v = .ok bs)
    ∧ (∀ (c : EncCodecs) (v : DataV), rawBytesOf v = none →
        EncodeData c "" v = .error errMissingContentType)
    ∧ (∀ (c : EncCodecs) (ct : String) (v : DataV), rawBytesOf v = none →
        ct ≠ "" → ct ≠ mimeApplicationXML → ct ≠ mimeApplicationJSON →
        ct ≠ mimeApplicationForm →
        EncodeData c ct v = .error ("unsupported request Content-Type " ++ ct)) := by
  refine ⟨?_, ?_, ?_⟩
  · intro c ct v bs hv
    cases v <;> simp_all [EncodeData, rawBytesOf]
  · intro c v hv
    cases v <;> simp_all [EncodeData, rawBytesOf]
  · intro c ct v hv h0 hx hj hf
    cases v <;> simp_all [EncodeData, rawBytesOf]

/-- C6, witness for `c6_encode_dispatch` with inert codecs: a `[]byte`
body passes through unchanged under an arbitrary content type, a
structured value under an empty content type is the missing-content-type
error, and a structured value under `text/plain` is the
unsupported-content-type error. -/
theorem c6_encode_dispatch_witness :
    EncodeData ⟨fun _ => .ok [], fun _ => .ok [], fun _ => ""⟩ "weird/ct" (.bytes [1, 2])
      = .ok [1, 2]
    ∧ EncodeData ⟨fun _ => .ok [], fun _ => .ok [], fun _ => ""⟩ "" (.structured 0)
      = .error errMissingContentType
    ∧ EncodeData ⟨fun _ => .ok [], fun _ => .ok [], fun _ => ""⟩ "text/plain"
        (.structured 0)
      = .error ("unsupported request Content-Type " ++ "text/plain") := by
  refine ⟨c6_encode_dispatch.1 _ "weird/ct" (.bytes [1, 2]) [1, 2] rfl,
    c6_encode_dispatch.2.1 _ (.structured 0) rfl,
    c6_encode_dispatch.2.2 _ "text/plain" (.structured 0) rfl (by decide) (by decide)
      (by decide) (by decide)⟩

/-- C7.  `DecodeResponseBody` is a no-op returning a nil error whenever
the destination is nil or the status code is 204, for every choice of
decoders — in particular on a 204 response with a non-nil destination the
content-type decoder is never invoked (the outcome is the same for every
decoder pair, even an always-failing one) and the handler reports
success. -/
theorem c7_decode_shortcut (c c' : DecCodecs) (dst : Option Nat) (resp : RespD) :
    (dst = none ∨ resp.status = 204 → DecodeResponseBody c dst resp = none)
    ∧ (resp.status = 204 →
        DecodeResponseBody c dst resp = DecodeResponseBody c' dst resp) := by
  constructor
  · intro h
    unfold DecodeResponseBody
    rw [if_pos h]
  · intro h
    unfold DecodeResponseBody
    rw [if_pos (Or.inr h), if_pos (Or.inr h)]

/-- C7, witness for `c7_decode_shortcut`: a 204 response with the
non-nil destination 5 decodes to a nil error even under an always-failing
decoder pair, and that failing pair agrees with a successful pair. -/
theorem c7_decode_shortcut_witness :
    DecodeResponseBody ⟨fun _ _ => some "boom", fun _ _ => some "boom"⟩ (some 5)
        ⟨204, "application/json", 9⟩ = none
    ∧ DecodeResponseBody ⟨fun _ _ => some "boom", fun _ _ => some "boom"⟩ (some 5)
          ⟨204, "application/json", 9⟩
      = DecodeResponseBody ⟨fun _ _ => none, fun _ _ => none⟩ (some 5)
          ⟨204, "application/json", 9⟩ :=
  ⟨(c7_decode_shortcut ⟨fun _ _ => some "boom", fun _ _ => some "boom"⟩
      ⟨fun _ _ => none, fun _ _ => none⟩ (some 5) ⟨204, "application/json", 9⟩).1
      (Or.inr rfl),
    (c7_decode_shortcut ⟨fun _ _ => some "boom", fun _ _ => some "boom"⟩
      ⟨fun _ _ => none, fun _ _ => none⟩ (some 5) ⟨204, "application/json", 9⟩).2 rfl⟩

/-- C8, counterexample.  The claim says an absolute request path
replaces the base url's path, so that base `http://h/base` plus `/x`
yields `http://h/x`.  On the code, `mergeurl` concatenates the absolute
path onto the whole base url: the request built over that base carries
the url `http://h/base/x`, which differs from the claimed `http://h/x`. -/
theorem c8_absolute_path_counterexample :
    clientRequestURL (setBaseURL "http://h/base") "/x" = ("http://h/base/x", none)
    ∧ ("http://h/base/x" : String) ≠ "http://h/x" := by
  constructor
  · rfl
  · decide

/-- C8, amended.  `Client.Request` resolves the request url as follows: a
scheme-prefixed (`https://` or `http://`) request url bypasses the base
url entirely; a relative request path with an empty base url records a
configuration error in the request and keeps the raw path as the url; a
relative path is joined to the base url with a single `/` separator, so
base `http://h/base/` (trailing slashes trimmed on `SetBaseURL`) plus
`path` yields `http://h/base/path`; and an absolute request path (leading
`/`) is concatenated onto the whole base url — not substituted for its
path — so base `http://h/base` plus `/x` yields `http://h/base/x`. -/
theorem c8_url_resolution :
    (∀ (base requrl : String),
        (goHasPrefix requrl "https://" ∨ goHasPrefix requrl "http://") →
        clientRequestURL base requrl = (requrl, none))
    ∧ (∀ requrl : String,
        ¬(goHasPrefix requrl "https://" ∨ goHasPrefix requrl "http://") →
        clientRequestURL "" requrl = (requrl, some ("invalid request url " ++ requrl)))
    ∧ clientRequestURL (setBaseURL "http://h/base/") "path" = ("http://h/base/path", none)
    ∧ (∀ (base requrl : String),
        ¬(goHasPrefix requrl "https://" ∨ goHasPrefix requrl "http://") →
        base ≠ "" → requrl ≠ "" → goFirstChar requrl = '/' →
        clientRequestURL base requrl = (base ++ requrl, none))
    ∧ (∀ (base requrl : String),
        ¬(goHasPrefix requrl "https://" ∨ goHasPrefix requrl "http://") →
        base ≠ "" → requrl ≠ "" → goFirstChar requrl ≠ '/' →
        clientRequestURL base requrl = (base ++ "/" ++ requrl, none))
    ∧ clientRequestURL (setBaseURL "http://h/base") "/x" = ("http://h/base/x", none) := by
  refine ⟨?_, ?_, by decide, ?_, ?_, by decide⟩
  · intro base r h
    unfold clientRequestURL
    rw [if_pos h]
  · intro r h
    unfold clientRequestURL
    rw [if_neg h, if_pos rfl]
  · intro base r h hb hr hfront
    unfold clientRequestURL mergeurl
    rw [if_neg h, if_neg hb, if_neg hr, if_pos hfront]
  · intro base r h hb hr hfront
    unfold clientRequestURL mergeurl
    rw [if_neg h, if_neg hb, if_neg hr, if_neg hfront]

/-- C8, witness for `c8_url_resolution`, exercising every hypothesized
part at concrete inputs: the absolute url `http://other/y` ignores the
base, a relative path over an empty base is the configuration error, the
absolute path `/x` is concatenated, and the relative path `p` is joined
with a slash. -/
theorem c8_url_resolution_witness :
    clientRequestURL "http://h/base" "http://other/y" = ("http://other/y", none)
    ∧ clientRequestURL "" "path" = ("path", some ("invalid request url " ++ "path"))
    ∧ clientRequestURL "http://h" "/x" = ("http://h" ++ "/x", none)
    ∧ clientRequestURL "http://h" "p" = ("http://h" ++ "/" ++ "p", none) :=
  ⟨c8_url_resolution.1 "http://h/base" "http://other/y" (Or.inr (by decide)),
    c8_url_resolution.2.1 "path" (by decide),
    c8_url_resolution.2.2.2.1 "http://h" "/x" (by decide) (by decide) (by decide)
      (by decide),
    c8_url_resolution.2.2.2.2.1 "http://h" "p" (by decide) (by decide) (by decide)
      (by decide)⟩

/-- C9.  The string rendering of `Error` is the mandatory `method=`
field followed by the comma-separated fields `url=`, `statuscode=`,
`data=`, `err=` in that order, where the `statuscode=` field is present
exactly when `Code > 0`, the `data=` field exactly when `Data` is
non-empty, and the `err=` field exactly when a cause is present; and in
the JSON serialization the keys `code`, `data` and `err` are present
exactly when `Code ≠ 0`, `Data` is non-empty, and a cause is present. -/
theorem c9_error_rendering (e : ErrorM) :
    errorString e
      = "method=" ++ e.method
        ++ String.join
          (((["url=" ++ e.url]
              ++ (if 0 < e.code then ["statuscode=" ++ toString e.code] else [])
              ++ (if e.data ≠ "" then ["data=" ++ e.data] else [])
              ++ (match e.err with
                  | some c => ["err=" ++ c.msg]
                  | none => []))).map (fun x => ", " ++ x))
    ∧ ("code" ∈ (errorJSONFields e).map Prod.fst ↔ e.code ≠ 0)
    ∧ ("data" ∈ (errorJSONFields e).map Prod.fst ↔ e.data ≠ "")
    ∧ ("err" ∈ (errorJSONFields e).map Prod.fst ↔ e.err.isSome) := by
  obtain ⟨m, u, code, data, err⟩ := e
  refine ⟨?_, ?_, ?_, ?_⟩
  · by_cases h1 : 0 < code <;> by_cases h2 : data ≠ "" <;>
      rcases err with _ | ⟨msg, aj⟩ <;>
      simp [errorString, String.join, h1, h2, String.append_assoc] <;>
      simp [← String.append_assoc]
  all_goals
    by_cases h1 : code = 0 <;> by_cases hm : m = "" <;> by_cases hu : u = "" <;>
      by_cases h2 : data = "" <;>
      (rcases err with _ | ⟨msg, aj⟩; rotate_left; rcases aj with _ | js; rotate_right) <;>
      simp_all [errorJSONFields]

/-- C1, evaluation of the code at the failing input.  Build a client
(`NewClient`), derive a request from it (`copyCommon` sets both clone
flags), and call `Request.SetHeader("K", "v")` on the request: because
`SetHeader` calls `cloneQuery()` instead of `cloneHeader()`, the request
clones the query map but then mutates the still-shared header map in
place, and the parent client's header map now carries the entry
`K: ["v"]` that it did not have before the call — contradicting the
claimed insulation of the client from request mutations. -/
theorem c1_setheader_mutates_parent_client :
    (let w0c := newClientM []
     let req := copyCommonM w0c.2
     let w1 := (setHeaderM w0c.1 req "K" "v").1
     mapGet (heapGet w1 w0c.2.headerId) "K" = some ["v"]
       ∧ mapGet (heapGet w0c.1 w0c.2.headerId) "K" = none
       ∧ (setHeaderM w0c.1 req "K" "v").2.clonequery = false
       ∧ (setHeaderM w0c.1 req "K" "v").2.cloneheader = true) := by
  decide

/-- C5.  `AddHook` on an empty hook chain stores the single hook
directly; on a single non-sequence hook it promotes to a fresh
two-element ordered sequence (owned afterwards); on a sequence still
shared with the parent (`clonehook` set) it clones the backing array
before appending, so the resulting chain is the old one plus the new hook
in a fresh owned array while the chain read through the old reference is
unchanged; and on an owned sequence (after an explicit `SetHook`,
`clonehook` clear) it appends in place without affecting any chain the
caller does not own (any reference to another array, or to a prefix of
this one). -/
theorem c5_addhook_cow :
    (∀ (w : HookHeap) (c : HookStateM) (h : Nat), c.hook = .hnil →
        addHookM w c h = (w, { c with hook := .single h }))
    ∧ (∀ (w : HookHeap) (c : HookStateM) (g h : Nat), c.hook = .single g →
        addHookM w c h = (w ++ [[g, h]], ⟨.seq w.length 2, false⟩))
    ∧ (∀ (w : HookHeap) (c : HookStateM) (h : Nat) (id len : Nat),
        c.hook = .seq id len → c.clonehook = true → id < w.length →
        len ≤ (hookHeapGet w id).length →
        (addHookM w c h).2 = ⟨.seq w.length (len + 1), false⟩
        ∧ readChain (addHookM w c h).1 ((addHookM w c h).2.hook)
            = readChain w c.hook ++ [h]
        ∧ readChain (addHookM w c h).1 c.hook = readChain w c.hook)
    ∧ (∀ (w : HookHeap) (c : HookStateM) (h : Nat) (id len : Nat),
        c.hook = .seq id len → c.clonehook = false → id < w.length →
        len ≤ (hookHeapGet w id).length →
        (addHookM w c h).2 = ⟨.seq id (len + 1), false⟩
        ∧ readChain (addHookM w c h).1 ((addHookM w c h).2.hook)
            = readChain w c.hook ++ [h]
        ∧ ∀ (id' len' : Nat), id' ≠ id ∨ len' ≤ len →
            readChain (addHookM w c h).1 (.seq id' len')
              = readChain w (.seq id' len')) := by
  refine ⟨?_, ?_, ?_, ?_⟩
  · intro w c h hc
    obtain ⟨hk, cl⟩ := c
    cases hc
    rfl
  · intro w c g h hc
    obtain ⟨hk, cl⟩ := c
    cases hc
    rfl
  · intro w c h id len hc hcl hid hlen
    obtain ⟨hk, cl⟩ := c
    cases hc
    cases hcl
    have haddh : addHookM w ⟨.seq id len, true⟩ h
        = (w ++ [(hookHeapGet w id).take len ++ [h]],
            ⟨.seq w.length (len + 1), false⟩) := rfl
    have harr : hookHeapGet (w ++ [(hookHeapGet w id).take len ++ [h]]) w.length
        = (hookHeapGet w id).take len ++ [h] := by
      simp only [hookHeapGet]
      rw [List.getD_append_right _ _ _ _ le_rfl]
      simp
    have hlen' : ((hookHeapGet w id).take len).length = len := by
      rw [List.length_take]
      omega
    refine ⟨by rw [haddh], ?_, ?_⟩
    · rw [haddh]
      show readChain (w ++ [(hookHeapGet w id).take len ++ [h]])
          (.seq w.length (len + 1)) = readChain w (.seq id len) ++ [h]
      simp only [readChain, harr]
      rw [List.take_of_length_le (by simp [hlen'])]
    · rw [haddh]
      show readChain (w ++ [(hookHeapGet w id).take len ++ [h]]) (.seq id len)
          = readChain w (.seq id len)
      simp only [readChain, hookHeapGet]
      rw [List.getD_append _ _ _ _ hid]
  · intro w c h id len hc hcl hid hlen
    obtain ⟨hk, cl⟩ := c
    cases hc
    cases hcl
    have haddh : addHookM w ⟨.seq id len, false⟩ h
        = (w.set id ((hookHeapGet w id).take len ++ [h]),
            ⟨.seq id (len + 1), false⟩) := rfl
    have harr : hookHeapGet (w.set id ((hookHeapGet w id).take len ++ [h])) id
        = (hookHeapGet w id).take len ++ [h] := by
      simp only [hookHeapGet, List.getD_eq_getElem?_getD]
      rw [List.getElem?_set_self' ]
      simp [List.getElem?_eq_getElem hid]
    have hlen' : ((hookHeapGet w id).take len).length = len := by
      rw [List.length_take]
      omega
    refine ⟨by rw [haddh], ?_, ?_⟩
    · rw [haddh]
      show readChain (w.set id ((hookHeapGet w id).take len ++ [h]))
          (.seq id (len + 1)) = readChain w (.seq id len) ++ [h]
      simp only [readChain, harr]
      rw [List.take_of_length_le (by simp [hlen'])]
    · intro id' len' hcase
      rw [haddh]
      show readChain (w.set id ((hookHeapGet w id).take len ++ [h])) (.seq id' len')
          = readChain w (.seq id' len')
      by_cases hid' : id' = id
      · subst hid'
        rcases hcase with hne | hle
        · exact absurd rfl hne
        · simp only [readChain, harr]
          rw [List.take_append_of_le_length (by omega), List.take_take]
          simp only [hookHeapGet]
          congr 1
          omega
      · simp only [readChain, hookHeapGet]
        rw [List.getD_eq_getElem?_getD, List.getD_eq_getElem?_getD,
          List.getElem?_set_ne (by omega), List.getD_eq_getElem?_getD]

/-- C5, witness for `c5_addhook_cow`, exercising all four hypothesized
parts at concrete inputs over the one-array heap `[[1, 2]]`: the empty
chain stores a single hook, the single hook is promoted to `[9, 7]`, a
shared two-hook chain is cloned (the old reference still reads `[1, 2]`),
and an owned two-hook chain is appended in place to read `[1, 2, 7]`. -/
theorem c5_addhook_cow_witness :
    addHookM [[1, 2]] ⟨.hnil, true⟩ 7 = ([[1, 2]], ⟨.single 7, true⟩)
    ∧ addHookM [[1, 2]] ⟨.single 9, true⟩ 7 = ([[1, 2], [9, 7]], ⟨.seq 1 2, false⟩)
    ∧ readChain (addHookM [[1, 2]] ⟨.seq 0 2, true⟩ 7).1 (.seq 0 2)
        = readChain [[1, 2]] (.seq 0 2)
    ∧ readChain (addHookM [[1, 2]] ⟨.seq 0 2, false⟩ 7).1
        ((addHookM [[1, 2]] ⟨.seq 0 2, false⟩ 7).2.hook) = [1, 2, 7] := by
  refine ⟨c5_addhook_cow.1 [[1, 2]] ⟨.hnil, true⟩ 7 rfl,
    c5_addhook_cow.2.1 [[1, 2]] ⟨.single 9, true⟩ 9 7 rfl, ?_, ?_⟩
  · exact (c5_addhook_cow.2.2.1 [[1, 2]] ⟨.seq 0 2, true⟩ 7 0 2 rfl rfl (by decide)
      (by decide)).2.2
  · exact (c5_addhook_cow.2.2.2 [[1, 2]] ⟨.seq 0 2, false⟩ 7 0 2 rfl rfl (by decide)
      (by decide)).2.1

end GoHttpClient
